import Mathlib

/-!
Shallow embedding of the client core of the analysis repository:
the WebSocket transport hook (`useChatSocket` in `src/lib/ws.ts`, present in two
variants), the inbound `message` de-duplication branch, the `admin_selected`
branch of the superadmin variant, and the call-signaling hook (`useWebRTC` in
`src/hooks/use-webrtc.ts`).

Modelling conventions:
- React `useState` values that handler closures read are collected in snapshot
  records (`EngineSnap`); queued `setX` updates are returned as the new snapshot
  and become visible only to invocations that run after the updates flush.
  React `useRef` cells mutate synchronously and are collected in `EngineRefs`;
  a later invocation in the same tick sees the updated refs but the old snapshot.
- Each handler is atomic (the dispatcher is single-threaded); the external
  media layer (getUserMedia, RTCPeerConnection) is modelled by its observable
  effects: a local stream flag, a peer-connection record holding the remote and
  local descriptions and the list of candidates applied to it, in order.
- Outbound frames produced by a handler are returned in `sent`; the number of
  times the handler stops the tracks of a non-null local stream is returned in
  `mediaStops`.
-/

/-- Client-to-relay wire frames, from `ClientEvent` in `src/lib/types.ts`.
SDP blobs and ICE candidates are opaque strings. -/
inductive ClientEvent where
  | ping : ClientEvent
  | selectChatroom (chat_id : String) : ClientEvent
  | selectAdmin (admin_id : String) : ClientEvent
  | selectMaster (master_id : String) (admin_id : Option String) : ClientEvent
  | message (text : String) : ClientEvent
  | callStart : ClientEvent
  | callAccept (call_id : String) : ClientEvent
  | callReject (call_id : String) : ClientEvent
  | callOffer (call_id : String) (sdp : String) : ClientEvent
  | callAnswer (call_id : String) (sdp : String) : ClientEvent
  | callIce (call_id : String) (candidate : String) : ClientEvent
  | callEnd (call_id : String) : ClientEvent
deriving DecidableEq, Repr

/-- `CallState` from `src/hooks/use-webrtc.ts`:
`"idle" | "ringing" | "connecting" | "connected" | "ended"`. -/
inductive CallState where
  | idle | ringing | connecting | connected | ended
deriving DecidableEq, Repr

/-- The observable state of an `RTCPeerConnection`: the remote and local
descriptions and the candidates applied via `addIceCandidate`, in order. -/
structure PeerConn where
  remoteDesc : Option String
  localDesc : Option String
  applied : List String
deriving DecidableEq, Repr

/-- The React `useState` values of `useWebRTC` that the handlers read through
their closures: `callState`, `isInitiator`, `callId`, `showIncomingCall`. -/
structure EngineSnap where
  callState : CallState
  isInitiator : Bool
  callId : Option String
  showIncomingCall : Bool
deriving DecidableEq, Repr

/-- The React `useRef` cells of `useWebRTC`: `peerConnectionRef`,
`localStreamRef` (modelled as a flag: a stream is held), `remoteStreamRef`,
`pendingIceRef`, `isEndingCallRef`. Refs mutate synchronously. -/
structure EngineRefs where
  pc : Option PeerConn
  localStream : Bool
  remoteStream : Bool
  pendingIce : List String
  isEndingCall : Bool
deriving DecidableEq, Repr

/-- Result of one handler invocation: the queued state updates (`snap`), the
mutated refs, the outbound frames passed to `send`, and how many times the
tracks of a non-null local stream were stopped. -/
structure HandlerOut where
  snap : EngineSnap
  refs : EngineRefs
  sent : List ClientEvent
  mediaStops : Nat
deriving DecidableEq, Repr

/-- `startCall` (use-webrtc.ts): no-op when no chatroom is selected or when
`callState !== "idle"`; otherwise sets initiator, moves to ringing and sends
`call.start`. -/
def startCall (chatId : Option String) (s : EngineSnap) (r : EngineRefs) : HandlerOut :=
  if chatId = none then ⟨s, r, [], 0⟩
  else if s.callState ≠ CallState.idle then ⟨s, r, [], 0⟩
  else ⟨{ s with isInitiator := true, callState := CallState.ringing }, r,
        [ClientEvent.callStart], 0⟩

/-- `handleCallIncoming` (use-webrtc.ts): ignored when a call is already
active (`callState !== "idle"`) under a different call id; otherwise records
the id, shows the accept affordance, moves to ringing as callee. -/
def handleCallIncoming (s : EngineSnap) (r : EngineRefs) (incomingCallId : String) :
    HandlerOut :=
  if s.callState ≠ CallState.idle ∧ s.callId ≠ some incomingCallId then ⟨s, r, [], 0⟩
  else ⟨{ s with callId := some incomingCallId, showIncomingCall := true,
                 callState := CallState.ringing, isInitiator := false }, r, [], 0⟩

/-- `acceptCall` (use-webrtc.ts): returns early only when no call id is known;
otherwise clears the affordance, moves to connecting and sends `call.accept`.
The source checks `callId` only — it does not check `callState`. -/
def acceptCall (s : EngineSnap) (r : EngineRefs) : HandlerOut :=
  match s.callId with
  | none => ⟨s, r, [], 0⟩
  | some cid =>
      ⟨{ s with showIncomingCall := false, callState := CallState.connecting }, r,
       [ClientEvent.callAccept cid], 0⟩

/-- `handleCallAccepted` (use-webrtc.ts), caller side, success path: acquires
local media, creates a fresh peer connection (no remote description), creates
and sets the local offer, sends `call.offer`, moves to connecting. The SDP the
media layer produces is a parameter. -/
def handleCallAccepted (s : EngineSnap) (r : EngineRefs) (offerSdp : String) : HandlerOut :=
  match s.callId with
  | none => ⟨s, r, [], 0⟩
  | some cid =>
      ⟨{ s with callState := CallState.connecting },
       { r with localStream := true,
                pc := some ⟨none, some offerSdp, []⟩ },
       [ClientEvent.callOffer cid offerSdp], 0⟩

/-- `handleCallOffer` (use-webrtc.ts), callee side, success path: acquires
local media, creates a fresh peer connection, sets the remote offer, drains
`pendingIceRef` in FIFO order into `addIceCandidate`, creates and sets the
local answer, sends `call.answer`, moves to connecting. -/
def handleCallOffer (s : EngineSnap) (r : EngineRefs) (offer : String) (answerSdp : String) :
    HandlerOut :=
  match s.callId with
  | none => ⟨s, r, [], 0⟩
  | some cid =>
      ⟨{ s with callState := CallState.connecting },
       { r with localStream := true,
                pc := some ⟨some offer, some answerSdp, r.pendingIce⟩,
                pendingIce := [] },
       [ClientEvent.callAnswer cid answerSdp], 0⟩

/-- `handleCallAnswer` (use-webrtc.ts), caller side: requires an existing peer
connection; sets the remote description to the answer and stays connecting.
The source does not touch `pendingIceRef` here. -/
def handleCallAnswer (s : EngineSnap) (r : EngineRefs) (answer : String) : HandlerOut :=
  match r.pc with
  | none => ⟨s, r, [], 0⟩
  | some pc =>
      ⟨{ s with callState := CallState.connecting },
       { r with pc := some { pc with remoteDesc := some answer } }, [], 0⟩

/-- `handleIceCandidate` (use-webrtc.ts): buffers the candidate when there is
no peer connection or no remote description yet, else applies it immediately. -/
def handleIceCandidate (s : EngineSnap) (r : EngineRefs) (cand : String) : HandlerOut :=
  match r.pc with
  | none => ⟨s, { r with pendingIce := r.pendingIce ++ [cand] }, [], 0⟩
  | some pc =>
      if pc.remoteDesc = none then
        ⟨s, { r with pendingIce := r.pendingIce ++ [cand] }, [], 0⟩
      else
        ⟨s, { r with pc := some { pc with applied := pc.applied ++ [cand] } }, [], 0⟩

/-- `handleCallRinging` (use-webrtc.ts): unconditionally overwrites the stored
call id with the one carried by the signal; when the previous state was idle,
moves to ringing as callee with the affordance shown, otherwise preserves
state and initiator. -/
def handleCallRinging (s : EngineSnap) (r : EngineRefs) (incomingCallId : String) :
    HandlerOut :=
  if s.callState = CallState.idle then
    ⟨{ s with callId := some incomingCallId, isInitiator := false,
              showIncomingCall := true, callState := CallState.ringing }, r, [], 0⟩
  else
    ⟨{ s with callId := some incomingCallId }, r, [], 0⟩

/-- `endCall` (use-webrtc.ts): returns early while `isEndingCallRef` is set;
otherwise sets the flag, sends `call.end` when the snapshot holds a call id,
stops local and remote tracks, closes the peer connection, discards buffered
candidates, queues the reset of all call state, and clears the flag again
before returning (so the returned refs have `isEndingCall = false`). -/
def endCall (s : EngineSnap) (r : EngineRefs) : HandlerOut :=
  if r.isEndingCall then ⟨s, r, [], 0⟩
  else
    ⟨⟨CallState.idle, false, none, false⟩,
     ⟨none, false, false, [], false⟩,
     (match s.callId with
      | some cid => [ClientEvent.callEnd cid]
      | none => []),
     if r.localStream then 1 else 0⟩

/-- Two invocations of `endCall` in immediate succession, i.e. within one
event tick: both closures read the same `useState` snapshot `s` (queued state
updates have not flushed), while the refs mutated by the first invocation are
seen by the second. Returns all frames sent and the total number of local
media teardowns. -/
def endCallTwiceSameTick (s : EngineSnap) (r : EngineRefs) : List ClientEvent × Nat :=
  let o1 := endCall s r
  let o2 := endCall s o1.refs
  (o1.sent ++ o2.sent, o1.mediaStops + o2.mediaStops)

/-- Modelled from the spec: the sources declare the `call.reject` client frame
(`ClientCallReject` in `src/lib/types.ts`) and the protocol test document
exercises the reject flow (Step 10 of `POSTMAN_WEBSOCKET_TEST.md`), but no
`rejectCall` implementation appears under the sources. Modelled from spec
section 4.4: callee, from `Ringing`, sends a reject request carrying the call
id and transitions to `Idle` without ever acquiring media; the tracked call is
destroyed on this terminal transition. -/
def rejectCall (s : EngineSnap) (r : EngineRefs) : HandlerOut :=
  if s.callState = CallState.ringing then
    match s.callId with
    | some cid =>
        ⟨⟨CallState.idle, s.isInitiator, none, false⟩, r,
         [ClientEvent.callReject cid], 0⟩
    | none => ⟨s, r, [], 0⟩
  else ⟨s, r, [], 0⟩

/-- Inbound call signals routed to the engine by the pages (`page.tsx`
variants dispatch each `callEvent` to the matching handler in its own effect
tick). SDP payloads produced locally by the media layer are carried alongside. -/
inductive CallSignal where
  | accepted (offerSdp : String) : CallSignal
  | offer (sdp : String) (answerSdp : String) : CallSignal
  | answer (sdp : String) : CallSignal
  | ice (cand : String) : CallSignal
deriving DecidableEq, Repr

/-- A world threading the engine through a sequence of signals: each signal is
handled in its own tick, so queued state updates flush before the next one. -/
structure EngineWorld where
  snap : EngineSnap
  refs : EngineRefs
  sent : List ClientEvent
  mediaStops : Nat
deriving DecidableEq, Repr

/-- Fold one handler result into the world. -/
def applyOut (w : EngineWorld) (o : HandlerOut) : EngineWorld :=
  ⟨o.snap, o.refs, w.sent ++ o.sent, w.mediaStops + o.mediaStops⟩

/-- Dispatch one inbound signal, as the page effect does. -/
def stepSignal (w : EngineWorld) (e : CallSignal) : EngineWorld :=
  match e with
  | CallSignal.accepted sdp => applyOut w (handleCallAccepted w.snap w.refs sdp)
  | CallSignal.offer sdp ans => applyOut w (handleCallOffer w.snap w.refs sdp ans)
  | CallSignal.answer sdp => applyOut w (handleCallAnswer w.snap w.refs sdp)
  | CallSignal.ice c => applyOut w (handleIceCandidate w.snap w.refs c)

/-- Run a sequence of inbound signals. -/
def runSignals (w : EngineWorld) (es : List CallSignal) : EngineWorld :=
  es.foldl stepSignal w

/-- The candidates applied to the live peer session, in order. -/
def appliedCandidates (r : EngineRefs) : List String :=
  match r.pc with
  | none => []
  | some pc => pc.applied

/-! ### Transport session (`useChatSocket` in `src/lib/ws.ts`) -/

/-- The connection state the hook exposes: the `status` string union
`"idle" | "connecting" | "open" | "closed"` plus `retryRef`. -/
structure TransportState where
  status : String
  retryCount : Nat
deriving DecidableEq, Repr

/-- The backoff formula of `ws.onclose`: `Math.min(1000 * 2 ** retryCount, 15000)`. -/
def backoffDelay (retryCount : Nat) : Nat :=
  min (1000 * 2 ^ retryCount) 15000

/-- `ws.onclose`: status becomes closed and the keepalive is cancelled; when
`retryRef.current < 5` a reconnect is scheduled after `backoffDelay` of the
old counter and the counter is incremented; otherwise nothing is scheduled.
The second component is the scheduled delay, if any. -/
def onClose (t : TransportState) : TransportState × Option Nat :=
  if t.retryCount < 5 then
    (⟨"closed", t.retryCount + 1⟩, some (backoffDelay t.retryCount))
  else
    ({ t with status := "closed" }, none)

/-- `ws.onopen`: status becomes open and the retry counter resets to 0. -/
def onOpen (_t : TransportState) : TransportState :=
  ⟨"open", 0⟩

/-- The browser `WebSocket.readyState` constants. -/
inductive ReadyState where
  | CONNECTING | OPEN | CLOSING | CLOSED
deriving DecidableEq, Repr

/-- A socket as `send` observes it: its ready state and the frames already
written to the wire (each written frame is the `JSON.stringify` serialization
of the payload; the model records the payload itself). The hook keeps no
outbound queue, which is why none appears here. -/
structure SocketModel where
  readyState : ReadyState
  wire : List ClientEvent
deriving DecidableEq, Repr

/-- `send` (ws.ts): writes the serialized frame exactly once when
`readyState === OPEN`, else logs a warning and drops the frame; it never
throws and surfaces no error to the caller. -/
def send (m : SocketModel) (f : ClientEvent) : SocketModel :=
  if m.readyState = ReadyState.OPEN then
    { m with wire := m.wire ++ [f] }
  else m

/-! ### Inbound `message` branch of `ws.onmessage` -/

/-- The live item collection entries (`ConversationItem` in types.ts,
restricted to the fields the `message` branch writes; `message_id` is an
optional field of the item type). -/
inductive ConversationItem where
  | text (from_ : String) (text : String) (created_at : String)
      (message_id : Option String) : ConversationItem
  | file (from_ : String) (file_url : String) (file_name : String) (file_type : String)
      (created_at : String) (message_id : Option String) : ConversationItem
  | audio (from_ : String) (audio_url : String) (audio_name : String) (audio_type : String)
      (created_at : String) (message_id : Option String) : ConversationItem
deriving DecidableEq, Repr

/-- The identity token of an item. -/
def itemMessageId : ConversationItem → Option String
  | ConversationItem.text _ _ _ mid => mid
  | ConversationItem.file _ _ _ _ _ mid => mid
  | ConversationItem.audio _ _ _ _ _ mid => mid

/-- Inbound content messages (`ServerTextMessage`, `ServerFileMessage`,
`ServerAudioMessage` in types.ts); every variant carries a `message_id`. -/
inductive ServerMessage where
  | text (from_ : String) (message : String) (message_id : String)
      (chat_id : String) (created_time : String) : ServerMessage
  | file (from_ : String) (file_url : String) (file_name : String) (file_type : String)
      (message_id : String) (chat_id : String) (created_time : String) : ServerMessage
  | audio (from_ : String) (audio_url : String) (audio_name : String) (audio_type : String)
      (message_id : String) (chat_id : String) (created_time : String) : ServerMessage
deriving DecidableEq, Repr

/-- The identity token of an inbound content message. -/
def serverMessageId : ServerMessage → String
  | ServerMessage.text _ _ mid _ _ => mid
  | ServerMessage.file _ _ _ _ mid _ _ => mid
  | ServerMessage.audio _ _ _ _ mid _ _ => mid

/-- The item the `message` branch appends for an inbound content message
(the shape built inline in `ws.onmessage`). -/
def decodeItem : ServerMessage → ConversationItem
  | ServerMessage.text f txt mid _ ct => ConversationItem.text f txt ct (some mid)
  | ServerMessage.file f u n ty mid _ ct => ConversationItem.file f u n ty ct (some mid)
  | ServerMessage.audio f u n ty mid _ ct => ConversationItem.audio f u n ty ct (some mid)

/-- The `message` branch of `ws.onmessage`: when some entry of the collection
already carries the same `message_id` (`prev.some(msg => msg.message_id ===
messageId)`) the updater returns `prev` unchanged; otherwise the decoded item
is appended. -/
def addLiveMessage (prev : List ConversationItem) (m : ServerMessage) :
    List ConversationItem :=
  if prev.any (fun msg => itemMessageId msg = some (serverMessageId m)) then prev
  else prev ++ [decodeItem m]

/-! ### `admin_selected` branch of the superadmin `useChatSocket` variant -/

/-- A chatroom summary as the branch reads it: `updated_time` is the epoch
value `new Date(...).getTime()` of the timestamp; `room_type` and `admin_id`
are optional payload fields; `user_id` is always present. -/
structure ChatroomSummary where
  chat_id : String
  user_id : String
  updated_time : Nat
  room_type : Option String
  admin_id : Option String
deriving DecidableEq, Repr

/-- A master roster entry (`HierarchyMaster` in types.ts). -/
structure HierarchyMaster where
  id : String
  name : String
  userName : String
deriving DecidableEq, Repr

/-- Stable insertion step for the descending by-recency sort: the inserted
room goes before the first room with an equal or older timestamp, so rooms
with equal timestamps keep their original relative order. -/
def insertByRecency (c : ChatroomSummary) : List ChatroomSummary → List ChatroomSummary
  | [] => [c]
  | d :: ds =>
      if d.updated_time ≤ c.updated_time then c :: d :: ds
      else d :: insertByRecency c ds

/-- `[...].sort((a, b) => b.updated_time - a.updated_time)`: a stable sort by
last-updated timestamp, descending (`Array.prototype.sort` is stable), here
as a stable insertion sort. -/
def sortByRecencyDesc (rooms : List ChatroomSummary) : List ChatroomSummary :=
  rooms.foldr insertByRecency []

/-- The resolver state the branch touches. -/
structure ResolverState where
  chatrooms : List ChatroomSummary
  initialPersonalChatrooms : List ChatroomSummary
  selectedAdminId : Option String
  selectedMasterId : Option String
  masters : List HierarchyMaster
  needsSelection : Bool
deriving DecidableEq, Repr

/-- The `admin_selected` branch of `ws.onmessage` (superadmin variant):
stores the admin id and the master roster, sorts the scoped chatrooms by
recency, and only when that scoped list contains no `staff_bot` room appends
the previously-seen personal chatrooms whose owner (`admin_id || user_id`,
modelled as `admin_id` defaulting to `user_id`) matches the chosen admin. -/
def onAdminSelected (st : ResolverState) (admin_id : String)
    (rooms : List ChatroomSummary) (ms : List HierarchyMaster) : ResolverState :=
  let sortedChatrooms := sortByRecencyDesc rooms
  let personalChats := sortedChatrooms.filter (fun c => c.room_type = some "staff_bot")
  let chatrooms :=
    if personalChats.length = 0 then
      let adminPersonalChats := st.initialPersonalChatrooms.filter
        (fun c => (c.admin_id.getD c.user_id) = admin_id)
      sortedChatrooms ++ adminPersonalChats
    else sortedChatrooms
  { st with selectedAdminId := some admin_id, masters := ms,
            chatrooms := chatrooms, needsSelection := true }

/-! ### Theorems -/

/-- C3: On every close of the transport, if the retry counter is strictly
below 5 a reconnect is scheduled after exactly `min(1000 * 2^retryCount,
15000)` ms and the counter is incremented (so `retryCount = 3` yields 8000
ms); at 5 no reconnect is scheduled; on every successful open the retry
counter resets to 0. -/
theorem close_backoff_open_reset (t : TransportState) :
    (t.retryCount < 5 →
      onClose t = (⟨"closed", t.retryCount + 1⟩,
                   some (min (1000 * 2 ^ t.retryCount) 15000)))
    ∧ (5 ≤ t.retryCount → (onClose t).2 = none)
    ∧ onOpen t = ⟨"open", 0⟩
    ∧ backoffDelay 3 = 8000 := by
  refine ⟨fun h => ?_, fun h => ?_, rfl, by decide⟩
  · simp [onClose, backoffDelay, h]
  · simp [onClose, Nat.not_lt.mpr h]

/-- Witness for C3 at `retryCount = 3` and `retryCount = 5`. -/
theorem close_backoff_open_reset_witness :
    onClose ⟨"open", 3⟩ = (⟨"closed", 4⟩, some 8000)
    ∧ (onClose ⟨"closed", 5⟩).2 = none := by
  constructor
  · have h := (close_backoff_open_reset ⟨"open", 3⟩).1 (by decide)
    rw [h]; decide
  · exact (close_backoff_open_reset ⟨"closed", 5⟩).2.1 (by decide)

/-- C9: a frame passed to `send` while the socket is not open is dropped —
the wire is unchanged, nothing is queued (the model state holds no queue,
as the source keeps none) and no error is surfaced (`send` is total); when
the socket is open the frame is written exactly once. -/
theorem send_atMostOnce_bestEffort (m : SocketModel) (f : ClientEvent) :
    (m.readyState ≠ ReadyState.OPEN → send m f = m)
    ∧ (m.readyState = ReadyState.OPEN → send m f = { m with wire := m.wire ++ [f] }) := by
  constructor
  · intro h; simp [send, h]
  · intro h; simp [send, h]

/-- Witness for C9 on a closed and on an open socket. -/
theorem send_atMostOnce_bestEffort_witness :
    send ⟨ReadyState.CLOSED, []⟩ ClientEvent.ping = ⟨ReadyState.CLOSED, []⟩
    ∧ send ⟨ReadyState.OPEN, []⟩ ClientEvent.ping
        = ⟨ReadyState.OPEN, [ClientEvent.ping]⟩ := by
  constructor
  · exact (send_atMostOnce_bestEffort ⟨ReadyState.CLOSED, []⟩ ClientEvent.ping).1 (by decide)
  · have h := (send_atMostOnce_bestEffort ⟨ReadyState.OPEN, []⟩ ClientEvent.ping).2 rfl
    simpa using h

/-- C5: at most one call is tracked at a time — `startCall()` outside `Idle`
is a local no-op (no state update, no frame), and an inbound incoming-call
signal with a call id different from the tracked one is ignored while a call
is active. -/
theorem single_active_call (chatId : Option String) (s : EngineSnap) (r : EngineRefs)
    (h : s.callState ≠ CallState.idle) :
    startCall chatId s r = ⟨s, r, [], 0⟩
    ∧ ∀ incomingCallId : String, s.callId ≠ some incomingCallId →
        handleCallIncoming s r incomingCallId = ⟨s, r, [], 0⟩ := by
  constructor
  · by_cases hc : chatId = none <;> simp [startCall, hc, h]
  · intro i hi
    simp [handleCallIncoming, h, hi]

/-- Witness for C5 with an active call `"c1"` and a foreign id `"c2"`. -/
theorem single_active_call_witness :
    startCall (some "room") ⟨CallState.ringing, true, some "c1", false⟩
        ⟨none, false, false, [], false⟩
      = ⟨⟨CallState.ringing, true, some "c1", false⟩, ⟨none, false, false, [], false⟩, [], 0⟩
    ∧ handleCallIncoming ⟨CallState.ringing, true, some "c1", false⟩
        ⟨none, false, false, [], false⟩ "c2"
      = ⟨⟨CallState.ringing, true, some "c1", false⟩, ⟨none, false, false, [], false⟩, [], 0⟩ := by
  have h := single_active_call (some "room") ⟨CallState.ringing, true, some "c1", false⟩
    ⟨none, false, false, [], false⟩ (by decide)
  exact ⟨h.1, h.2 "c2" (by decide)⟩

/-- Counterexample to C6: with a known call id but state `connected` (not
`Ringing`), `acceptCall` is not a no-op — it sends `call.accept` and moves
the state to `connecting`. -/
theorem acceptCall_effective_outside_ringing :
    (acceptCall ⟨CallState.connected, true, some "c1", false⟩
        ⟨none, false, false, [], false⟩).sent = [ClientEvent.callAccept "c1"]
    ∧ (acceptCall ⟨CallState.connected, true, some "c1", false⟩
        ⟨none, false, false, [], false⟩).snap.callState = CallState.connecting := by
  constructor <;> decide

/-- C6 as amended: the only guard of `acceptCall` is a known call id — with
no id it is a no-op that sends nothing and changes no state; with an id, in
any state, it sends `call.accept`, moves to `Connecting` and clears the
accept affordance. -/
theorem acceptCall_guarded_by_callId (s : EngineSnap) (r : EngineRefs) :
    (s.callId = none → acceptCall s r = ⟨s, r, [], 0⟩)
    ∧ ∀ cid : String, s.callId = some cid →
        acceptCall s r =
          ⟨{ s with showIncomingCall := false, callState := CallState.connecting }, r,
           [ClientEvent.callAccept cid], 0⟩ := by
  constructor
  · intro h; simp [acceptCall, h]
  · intro cid h; simp [acceptCall, h]

/-- Witness for amended C6: no-op with no id, effective from `ringing`. -/
theorem acceptCall_guarded_by_callId_witness :
    acceptCall ⟨CallState.idle, false, none, false⟩ ⟨none, false, false, [], false⟩
      = ⟨⟨CallState.idle, false, none, false⟩, ⟨none, false, false, [], false⟩, [], 0⟩
    ∧ acceptCall ⟨CallState.ringing, false, some "c1", true⟩ ⟨none, false, false, [], false⟩
      = ⟨⟨CallState.connecting, false, some "c1", false⟩, ⟨none, false, false, [], false⟩,
         [ClientEvent.callAccept "c1"], 0⟩ := by
  constructor
  · exact (acceptCall_guarded_by_callId ⟨CallState.idle, false, none, false⟩
      ⟨none, false, false, [], false⟩).1 rfl
  · have h := (acceptCall_guarded_by_callId ⟨CallState.ringing, false, some "c1", true⟩
      ⟨none, false, false, [], false⟩).2 "c1" rfl
    rw [h]

/-- C10: an inbound ringing signal overwrites the stored call id with the
carried id in every state (even when it differs), touches no refs, sends
nothing; from `Idle` it is treated as an incoming call (ringing, initiator
false, accept affordance shown); outside `Idle` the rest of the snapshot is
preserved. -/
theorem ringing_overwrites_call_id (s : EngineSnap) (r : EngineRefs)
    (incomingCallId : String) :
    (handleCallRinging s r incomingCallId).snap.callId = some incomingCallId
    ∧ (handleCallRinging s r incomingCallId).refs = r
    ∧ (handleCallRinging s r incomingCallId).sent = []
    ∧ (s.callState = CallState.idle →
        (handleCallRinging s r incomingCallId).snap
          = ⟨CallState.ringing, false, some incomingCallId, true⟩)
    ∧ (s.callState ≠ CallState.idle →
        (handleCallRinging s r incomingCallId).snap
          = { s with callId := some incomingCallId }) := by
  rcases s with ⟨cs, ii, ci, sic⟩
  by_cases h : cs = CallState.idle <;> simp [handleCallRinging, h]

/-- Witness for C10 from idle and from a connected call with a differing id. -/
theorem ringing_overwrites_call_id_witness :
    (handleCallRinging ⟨CallState.idle, false, none, false⟩
        ⟨none, false, false, [], false⟩ "c1").snap
      = ⟨CallState.ringing, false, some "c1", true⟩
    ∧ (handleCallRinging ⟨CallState.connected, true, some "c1", false⟩
        ⟨none, false, false, [], false⟩ "c2").snap
      = ⟨CallState.connected, true, some "c2", false⟩ := by
  constructor
  · exact (ringing_overwrites_call_id ⟨CallState.idle, false, none, false⟩
      ⟨none, false, false, [], false⟩ "c1").2.2.2.1 rfl
  · have h := (ringing_overwrites_call_id ⟨CallState.connected, true, some "c1", false⟩
      ⟨none, false, false, [], false⟩ "c2").2.2.2.2 (by decide)
    simpa using h

/-- C7 (rejectCall is modelled from the spec, as only its wire-frame
declaration and protocol test document exist in the sources): from `Ringing`
with a known call id, `rejectCall` sends `call.reject` carrying the id,
transitions to `Idle`, and leaves every ref untouched — in particular it
never acquires local media and stops nothing. -/
theorem rejectCall_ringing_to_idle (s : EngineSnap) (r : EngineRefs) (cid : String)
    (hst : s.callState = CallState.ringing) (hid : s.callId = some cid) :
    (rejectCall s r).sent = [ClientEvent.callReject cid]
    ∧ (rejectCall s r).snap.callState = CallState.idle
    ∧ (rejectCall s r).refs = r
    ∧ (rejectCall s r).refs.localStream = r.localStream
    ∧ (rejectCall s r).mediaStops = 0 := by
  simp [rejectCall, hst, hid]

/-- Witness for C7 at a ringing callee with call id `"c1"` and no media. -/
theorem rejectCall_ringing_to_idle_witness :
    (rejectCall ⟨CallState.ringing, false, some "c1", true⟩
        ⟨none, false, false, [], false⟩).sent = [ClientEvent.callReject "c1"]
    ∧ (rejectCall ⟨CallState.ringing, false, some "c1", true⟩
        ⟨none, false, false, [], false⟩).refs.localStream = false := by
  have h := rejectCall_ringing_to_idle ⟨CallState.ringing, false, some "c1", true⟩
    ⟨none, false, false, [], false⟩ "c1" rfl rfl
  exact ⟨h.1, h.2.2.2.1⟩

/-- Counterexample to C2: two `endCall()` invocations in immediate
succession run against the same state snapshot (queued updates have not
flushed; the in-flight flag was already reset by the first invocation), so
the second one sends `call.end` again — two outbound `call.end` frames, not
one. Local media is torn down exactly once, because the stream ref was
nulled synchronously. -/
theorem endCall_twice_two_frames :
    endCallTwiceSameTick ⟨CallState.connected, true, some "c1", false⟩
        ⟨some ⟨some "ans", some "off", []⟩, true, true, [], false⟩
      = ([ClientEvent.callEnd "c1", ClientEvent.callEnd "c1"], 1)
    ∧ (endCallTwiceSameTick ⟨CallState.connected, true, some "c1", false⟩
        ⟨some ⟨some "ans", some "off", []⟩, true, true, [], false⟩).1.length ≠ 1 := by
  constructor <;> decide

/-- C2 as amended: across two same-tick invocations local media is torn down
exactly once, but one `call.end` is sent per invocation while the snapshot
still holds the call id; the in-flight flag collapses only triggers arriving
while an execution is in progress (flag set), and once the queued state
updates flush (call id cleared) a further `endCall` sends nothing and stops
nothing. -/
theorem endCall_teardown_once (s : EngineSnap) (r : EngineRefs) (cid : String)
    (hid : s.callId = some cid) (hflag : r.isEndingCall = false)
    (hstream : r.localStream = true) :
    endCallTwiceSameTick s r
      = ([ClientEvent.callEnd cid, ClientEvent.callEnd cid], 1)
    ∧ (endCall (endCall s r).snap (endCall s r).refs).sent = []
    ∧ (endCall (endCall s r).snap (endCall s r).refs).mediaStops = 0
    ∧ endCall s { r with isEndingCall := true }
        = ⟨s, { r with isEndingCall := true }, [], 0⟩ := by
  refine ⟨?_, ?_, ?_, ?_⟩ <;>
    simp [endCallTwiceSameTick, endCall, hid, hflag, hstream]

/-- Witness for amended C2 at a connected call `"c1"` with live media. -/
theorem endCall_teardown_once_witness :
    endCallTwiceSameTick ⟨CallState.connected, true, some "c1", false⟩
        ⟨some ⟨some "ans", some "off", []⟩, true, true, [], false⟩
      = ([ClientEvent.callEnd "c1", ClientEvent.callEnd "c1"], 1)
    ∧ endCall ⟨CallState.connected, true, some "c1", false⟩
        ⟨some ⟨some "ans", some "off", []⟩, true, true, [], true⟩
      = ⟨⟨CallState.connected, true, some "c1", false⟩,
         ⟨some ⟨some "ans", some "off", []⟩, true, true, [], true⟩, [], 0⟩ := by
  have h := endCall_teardown_once ⟨CallState.connected, true, some "c1", false⟩
    ⟨some ⟨some "ans", some "off", []⟩, true, true, [], false⟩ "c1" rfl rfl rfl
  exact ⟨h.1, h.2.2.2⟩

/-- Counterexample to C8: when the admin-scoped list itself contains a
`staff_bot` room, the previously-seen personal chatroom of the chosen admin
is NOT merged in — the scoped list alone replaces the conversation list. -/
theorem adminSelected_merge_conditional :
    (onAdminSelected
        ⟨[], [⟨"c_p", "A1", 50, some "staff_bot", none⟩], none, none, [], true⟩
        "A1" [⟨"c_sb", "u9", 100, some "staff_bot", none⟩] []).chatrooms
      = [⟨"c_sb", "u9", 100, some "staff_bot", none⟩]
    ∧ (⟨"c_p", "A1", 50, some "staff_bot", none⟩ : ChatroomSummary) ∉
        (onAdminSelected
          ⟨[], [⟨"c_p", "A1", 50, some "staff_bot", none⟩], none, none, [], true⟩
          "A1" [⟨"c_sb", "u9", 100, some "staff_bot", none⟩] []).chatrooms := by
  constructor
  · rfl
  · decide

/-- C8 as amended: on every `admin_selected` confirmation the admin id and
master roster are stored and the conversation list is replaced by the scoped
list sorted by recency; the previously-seen personal (`staff_bot`)
conversations matching the chosen admin by owner id are appended only when
the scoped list itself contains no `staff_bot` room. -/
theorem adminSelected_replaces_list (st : ResolverState) (admin_id : String)
    (rooms : List ChatroomSummary) (ms : List HierarchyMaster) :
    (onAdminSelected st admin_id rooms ms).selectedAdminId = some admin_id
    ∧ (onAdminSelected st admin_id rooms ms).masters = ms
    ∧ (onAdminSelected st admin_id rooms ms).needsSelection = true
    ∧ ((sortByRecencyDesc rooms).filter
          (fun c => c.room_type = some "staff_bot") = [] →
        (onAdminSelected st admin_id rooms ms).chatrooms
          = sortByRecencyDesc rooms
            ++ st.initialPersonalChatrooms.filter
                 (fun c => c.admin_id.getD c.user_id = admin_id))
    ∧ ((sortByRecencyDesc rooms).filter
          (fun c => c.room_type = some "staff_bot") ≠ [] →
        (onAdminSelected st admin_id rooms ms).chatrooms = sortByRecencyDesc rooms) := by
  refine ⟨rfl, rfl, rfl, fun h => ?_, fun h => ?_⟩
  · simp [onAdminSelected, h]
  · simp [onAdminSelected, List.length_eq_zero, h]

/-- Witness for amended C8: one confirmation whose scoped list has no
`staff_bot` room (the matching personal room is appended) and one whose
scoped list has one (no merge). -/
theorem adminSelected_replaces_list_witness :
    (onAdminSelected
        ⟨[], [⟨"c_p", "A1", 50, some "staff_bot", none⟩], none, none, [], true⟩
        "A1" [⟨"c_n", "u7", 100, some "normal", none⟩] []).chatrooms
      = [⟨"c_n", "u7", 100, some "normal", none⟩, ⟨"c_p", "A1", 50, some "staff_bot", none⟩]
    ∧ (onAdminSelected
        ⟨[], [⟨"c_p", "A1", 50, some "staff_bot", none⟩], none, none, [], true⟩
        "A1" [⟨"c_sb", "u9", 100, some "staff_bot", none⟩] []).chatrooms
      = [⟨"c_sb", "u9", 100, some "staff_bot", none⟩] := by
  constructor
  · have h := (adminSelected_replaces_list
      ⟨[], [⟨"c_p", "A1", 50, some "staff_bot", none⟩], none, none, [], true⟩
      "A1" [⟨"c_n", "u7", 100, some "normal", none⟩] []).2.2.2.1 (by decide)
    rw [h]; decide
  · have h := (adminSelected_replaces_list
      ⟨[], [⟨"c_p", "A1", 50, some "staff_bot", none⟩], none, none, [], true⟩
      "A1" [⟨"c_sb", "u9", 100, some "staff_bot", none⟩] []).2.2.2.2 (by decide)
    rw [h]; decide

/-- C4: the item collection deduplicates inbound content messages by identity
token — an inbound message whose `message_id` already appears leaves the
collection unchanged; the no-duplicate-token invariant is preserved by every
step; receiving the same message twice is idempotent and, starting without
that token, yields exactly one entry bearing it. -/
theorem message_dedup_by_id (prev : List ConversationItem) (m : ServerMessage) :
    (prev.any (fun it => itemMessageId it = some (serverMessageId m)) = true →
       addLiveMessage prev m = prev)
    ∧ ((prev.filterMap itemMessageId).Nodup →
       ((addLiveMessage prev m).filterMap itemMessageId).Nodup)
    ∧ addLiveMessage (addLiveMessage prev m) m = addLiveMessage prev m
    ∧ (prev.any (fun it => itemMessageId it = some (serverMessageId m)) = false →
       ((addLiveMessage (addLiveMessage prev m) m).filter
          (fun it => itemMessageId it = some (serverMessageId m))).length = 1) := by
  have hdec : itemMessageId (decodeItem m) = some (serverMessageId m) := by
    cases m <;> rfl
  by_cases h : prev.any (fun it => itemMessageId it = some (serverMessageId m)) = true
  · refine ⟨fun _ => by simp [addLiveMessage, h], fun hnd => ?_, ?_, fun hf => ?_⟩
    · simpa [addLiveMessage, h] using hnd
    · simp [addLiveMessage, h]
    · rw [hf] at h; exact absurd h (by simp)
  · have hfalse : prev.any (fun it => itemMessageId it = some (serverMessageId m)) = false := by
      simpa using h
    have hnot : ∀ it ∈ prev, ¬ itemMessageId it = some (serverMessageId m) := by
      simpa using List.any_eq_false.mp hfalse
    have hadd : addLiveMessage prev m = prev ++ [decodeItem m] := by
      simp [addLiveMessage, hfalse]
    have hsecond : (prev ++ [decodeItem m]).any
        (fun it => itemMessageId it = some (serverMessageId m)) = true := by
      simp [List.any_append, hdec]
    refine ⟨fun hcontra => absurd hcontra (by simp [hfalse]), fun hnd => ?_, ?_, fun _ => ?_⟩
    · rw [hadd, List.filterMap_append]
      simp only [List.filterMap, hdec]
      rw [List.nodup_append]
      refine ⟨hnd, by simp, ?_⟩
      intro a ha hb
      simp at hb
      rcases hb with hb
      subst hb
      rcases List.mem_filterMap.mp ha with ⟨it, hit, hid⟩
      exact hnot it hit hid
    · rw [hadd]
      simp [addLiveMessage, hsecond]
    · rw [hadd]
      have hrepeat : addLiveMessage (prev ++ [decodeItem m]) m = prev ++ [decodeItem m] := by
        simp [addLiveMessage, hsecond]
      rw [hrepeat, List.filter_append]
      have hprev : prev.filter
          (fun it => itemMessageId it = some (serverMessageId m)) = [] := by
        apply List.filter_eq_nil_iff.mpr
        intro a ha
        simpa using hnot a ha
      rw [hprev]
      simp [hdec]

/-- Witness for C4: the message bearing token `"m1"` received twice yields
one entry, and is dropped when its token is already present. -/
theorem message_dedup_by_id_witness :
    addLiveMessage [ConversationItem.text "user" "hi" "t0" (some "m1")]
        (ServerMessage.text "user" "hi" "m1" "c0" "t0")
      = [ConversationItem.text "user" "hi" "t0" (some "m1")]
    ∧ ((addLiveMessage (addLiveMessage [] (ServerMessage.text "user" "hi" "m1" "c0" "t0"))
          (ServerMessage.text "user" "hi" "m1" "c0" "t0")).filter
          (fun it => itemMessageId it
            = some (serverMessageId
                (ServerMessage.text "user" "hi" "m1" "c0" "t0")))).length = 1 := by
  constructor
  · exact (message_dedup_by_id [ConversationItem.text "user" "hi" "t0" (some "m1")]
      (ServerMessage.text "user" "hi" "m1" "c0" "t0")).1 (by decide)
  · exact (message_dedup_by_id []
      (ServerMessage.text "user" "hi" "m1" "c0" "t0")).2.2.2 (by decide)

/-- Candidates dispatched while no peer connection exists accumulate in the
pending buffer in arrival order; the snapshot is untouched. -/
theorem runSignals_buffer_phase (cs : List String) :
    ∀ w : EngineWorld, w.refs.pc = none →
      (runSignals w (cs.map CallSignal.ice)).snap = w.snap
      ∧ (runSignals w (cs.map CallSignal.ice)).refs.pc = none
      ∧ (runSignals w (cs.map CallSignal.ice)).refs.pendingIce
          = w.refs.pendingIce ++ cs := by
  induction cs with
  | nil => intro w h; simp [runSignals, h]
  | cons c cs ih =>
      intro w h
      have hstep : stepSignal w (CallSignal.ice c)
          = ⟨w.snap, { w.refs with pendingIce := w.refs.pendingIce ++ [c] },
             w.sent, w.mediaStops⟩ := by
        simp [stepSignal, handleIceCandidate, h, applyOut]
      have hrun : runSignals w ((c :: cs).map CallSignal.ice)
          = runSignals (stepSignal w (CallSignal.ice c)) (cs.map CallSignal.ice) := rfl
      obtain ⟨h1, h2, h3⟩ := ih ⟨w.snap,
        { w.refs with pendingIce := w.refs.pendingIce ++ [c] }, w.sent, w.mediaStops⟩ h
      rw [hrun, hstep]
      exact ⟨h1, h2, by simpa [List.append_assoc] using h3⟩

/-- Candidates dispatched while the peer connection holds a remote
description are applied immediately, in arrival order; the buffer is
untouched. -/
theorem runSignals_apply_phase (ds : List String) :
    ∀ (w : EngineWorld) (pc : PeerConn) (rd : String),
      w.refs.pc = some pc → pc.remoteDesc = some rd →
      (runSignals w (ds.map CallSignal.ice)).refs.pc
          = some { pc with applied := pc.applied ++ ds }
      ∧ (runSignals w (ds.map CallSignal.ice)).refs.pendingIce
          = w.refs.pendingIce := by
  induction ds with
  | nil =>
      intro w pc rd h hrd
      refine ⟨?_, by simp [runSignals]⟩
      simpa [runSignals] using h
  | cons d ds ih =>
      intro w pc rd h hrd
      have hstep : stepSignal w (CallSignal.ice d)
          = ⟨w.snap,
             { w.refs with pc := some { pc with applied := pc.applied ++ [d] } },
             w.sent, w.mediaStops⟩ := by
        simp [stepSignal, handleIceCandidate, h, hrd, applyOut]
      have hrun : runSignals w ((d :: ds).map CallSignal.ice)
          = runSignals (stepSignal w (CallSignal.ice d)) (ds.map CallSignal.ice) := rfl
      obtain ⟨h1, h2⟩ := ih ⟨w.snap,
          { w.refs with pc := some { pc with applied := pc.applied ++ [d] } },
          w.sent, w.mediaStops⟩
        { pc with applied := pc.applied ++ [d] } rd rfl hrd
      rw [hrun, hstep]
      exact ⟨by simpa [List.append_assoc] using h1, by simpa using h2⟩

/-- An inbound offer followed by candidates: the freshly created peer session
takes the remote offer, the buffer is drained into it in FIFO order and then
emptied, and the following candidates are applied behind the drained ones. -/
theorem offer_then_ice (w : EngineWorld) (cid offer answerSdp : String)
    (ds : List String) (hc : w.snap.callId = some cid) :
    (runSignals w (CallSignal.offer offer answerSdp :: ds.map CallSignal.ice)).refs.pc
        = some ⟨some offer, some answerSdp, w.refs.pendingIce ++ ds⟩
    ∧ (runSignals w
        (CallSignal.offer offer answerSdp :: ds.map CallSignal.ice)).refs.pendingIce
        = [] := by
  have hstep : stepSignal w (CallSignal.offer offer answerSdp)
      = ⟨{ w.snap with callState := CallState.connecting },
         { w.refs with localStream := true,
                       pc := some ⟨some offer, some answerSdp, w.refs.pendingIce⟩,
                       pendingIce := [] },
         w.sent ++ [ClientEvent.callAnswer cid answerSdp], w.mediaStops⟩ := by
    simp [stepSignal, handleCallOffer, hc, applyOut]
  have hrun : runSignals w (CallSignal.offer offer answerSdp :: ds.map CallSignal.ice)
      = runSignals (stepSignal w (CallSignal.offer offer answerSdp))
          (ds.map CallSignal.ice) := rfl
  obtain ⟨h1, h2⟩ := runSignals_apply_phase ds
    ⟨{ w.snap with callState := CallState.connecting },
     { w.refs with localStream := true,
                   pc := some ⟨some offer, some answerSdp, w.refs.pendingIce⟩,
                   pendingIce := [] },
     w.sent ++ [ClientEvent.callAnswer cid answerSdp], w.mediaStops⟩
    ⟨some offer, some answerSdp, w.refs.pendingIce⟩ offer rfl rfl
  rw [hrun, hstep]
  exact ⟨by simpa using h1, by simpa using h2⟩

/-- Counterexample to C1: on the caller path (peer session created on
`call.accepted`, no remote description yet) a candidate arriving before the
answer is buffered, and `handleCallAnswer` sets the remote description
without draining the buffer — the candidate is never applied, so the buffer
is not drained the instant a remote description is accepted on the answer
path. -/
theorem answer_path_not_drained :
    appliedCandidates (runSignals
        ⟨⟨CallState.ringing, true, some "c1", false⟩,
         ⟨none, false, false, [], false⟩, [], 0⟩
        [CallSignal.accepted "off1", CallSignal.ice "cand1",
         CallSignal.answer "ans1"]).refs = []
    ∧ (runSignals
        ⟨⟨CallState.ringing, true, some "c1", false⟩,
         ⟨none, false, false, [], false⟩, [], 0⟩
        [CallSignal.accepted "off1", CallSignal.ice "cand1",
         CallSignal.answer "ans1"]).refs.pendingIce = ["cand1"]
    ∧ (runSignals
        ⟨⟨CallState.ringing, true, some "c1", false⟩,
         ⟨none, false, false, [], false⟩, [], 0⟩
        [CallSignal.accepted "off1", CallSignal.ice "cand1",
         CallSignal.answer "ans1"]).refs.pc
      = some ⟨some "ans1", some "off1", []⟩ := by
  refine ⟨rfl, rfl, rfl⟩

/-- C1 as amended: on the callee offer path every candidate — whether
buffered before the offer or arriving after it — is applied to the peer
session exactly once, in arrival order, only once the remote description is
set, and the buffer is left empty; on the caller answer path
`handleCallAnswer` leaves the pending buffer untouched (it is not drained
when the remote answer is accepted). -/
theorem ice_exactly_once_in_order (s : EngineSnap) (r : EngineRefs) (cid : String)
    (hid : s.callId = some cid) (hpc : r.pc = none) (hbuf : r.pendingIce = [])
    (offer answerSdp : String) (cs ds : List String) :
    appliedCandidates (runSignals ⟨s, r, [], 0⟩
        (cs.map CallSignal.ice ++ [CallSignal.offer offer answerSdp]
          ++ ds.map CallSignal.ice)).refs = cs ++ ds
    ∧ (runSignals ⟨s, r, [], 0⟩
        (cs.map CallSignal.ice ++ [CallSignal.offer offer answerSdp]
          ++ ds.map CallSignal.ice)).refs.pendingIce = []
    ∧ ∀ (r2 : EngineRefs) (pc2 : PeerConn) (ans : String), r2.pc = some pc2 →
        (handleCallAnswer s r2 ans).refs.pendingIce = r2.pendingIce := by
  have hlist : cs.map CallSignal.ice ++ [CallSignal.offer offer answerSdp]
        ++ ds.map CallSignal.ice
      = cs.map CallSignal.ice
        ++ (CallSignal.offer offer answerSdp :: ds.map CallSignal.ice) := by
    simp
  have hcomp : runSignals ⟨s, r, [], 0⟩
        (cs.map CallSignal.ice
          ++ (CallSignal.offer offer answerSdp :: ds.map CallSignal.ice))
      = runSignals (runSignals ⟨s, r, [], 0⟩ (cs.map CallSignal.ice))
          (CallSignal.offer offer answerSdp :: ds.map CallSignal.ice) := by
    simp [runSignals, List.foldl_append]
  obtain ⟨hA1, hA2, hA3⟩ := runSignals_buffer_phase cs ⟨s, r, [], 0⟩ hpc
  have hA3c : (runSignals ⟨s, r, [], 0⟩ (cs.map CallSignal.ice)).refs.pendingIce
      = cs := by
    rw [hA3]; simp [hbuf]
  have hc1 : (runSignals ⟨s, r, [], 0⟩ (cs.map CallSignal.ice)).snap.callId
      = some cid := by
    rw [hA1]; exact hid
  obtain ⟨hB1, hB2⟩ := offer_then_ice
    (runSignals ⟨s, r, [], 0⟩ (cs.map CallSignal.ice)) cid offer answerSdp ds hc1
  rw [hA3c] at hB1
  refine ⟨?_, ?_, ?_⟩
  · rw [hlist, hcomp]
    simp [appliedCandidates, hB1]
  · rw [hlist, hcomp, hB2]
  · intro r2 pc2 ans h2
    simp [handleCallAnswer, h2]

/-- Witness for amended C1: two candidates before the offer, one after, all
applied in arrival order with an empty buffer; an answer against a live peer
session leaves a nonempty buffer untouched. -/
theorem ice_exactly_once_in_order_witness :
    appliedCandidates (runSignals
        ⟨⟨CallState.connecting, false, some "c1", false⟩,
         ⟨none, false, false, [], false⟩, [], 0⟩
        (["a1", "a2"].map CallSignal.ice ++ [CallSignal.offer "off" "ans"]
          ++ ["b1"].map CallSignal.ice)).refs = ["a1", "a2"] ++ ["b1"]
    ∧ (runSignals
        ⟨⟨CallState.connecting, false, some "c1", false⟩,
         ⟨none, false, false, [], false⟩, [], 0⟩
        (["a1", "a2"].map CallSignal.ice ++ [CallSignal.offer "off" "ans"]
          ++ ["b1"].map CallSignal.ice)).refs.pendingIce = []
    ∧ (handleCallAnswer ⟨CallState.connecting, false, some "c1", false⟩
        ⟨some ⟨none, some "off", []⟩, true, false, ["x"], false⟩
        "ans").refs.pendingIce = ["x"] := by
  have h := ice_exactly_once_in_order
    ⟨CallState.connecting, false, some "c1", false⟩
    ⟨none, false, false, [], false⟩ "c1" rfl rfl rfl "off" "ans" ["a1", "a2"] ["b1"]
  exact ⟨h.1, h.2.1,
    h.2.2 ⟨some ⟨none, some "off", []⟩, true, false, ["x"], false⟩
      ⟨none, some "off", []⟩ "ans" rfl⟩
